import Mathlib

/-!
Shallow embedding of `src/monitoring/user-stats-exporter/user_stats_exporter.py`.

The Python module parses nginx access-log lines with two anchored-at-start
regular expressions (an "enhanced" grammar with a timing suffix and a "basic"
grammar without it), classifies each parsed line (rate-limit hit, timeout
kind), and updates Prometheus counters/gauges plus two in-process activity
dictionaries.

Both regexes are sequences of character-class runs (`\S+`, `[^\]]+`, `[^"]+`,
`\d+`, `[^"]*`, `[\d.]+`) each immediately followed by a literal character
that is outside the preceding class.  For such patterns backtracking can
never produce an alternative match: every run is forced to end exactly at
its maximal extent, so the regex match is equivalent to the deterministic
maximal-munch parser defined below.  `re.match` anchors at the start of the
string only, so any trailing text after a successful match is ignored.

Modelling conventions:
  * Python character classes are modelled over their ASCII meaning
    (`\s` = space/tab/newline/CR/FF/VT, `\d` = '0'..'9'); exotic Unicode
    whitespace/digits are outside the scope of the claims.
  * Python `float` values produced by `float(token)` for a token drawn from
    `[\d.]+` are modelled exactly as rationals (`ℚ`); `float(token)` raises
    `ValueError` (caught by the function, which then returns `None`) exactly
    when the token has no digit or more than one dot.
  * Python `int` counters are modelled as `ℤ` (Prometheus counter values),
    the activity dictionary `active_users` as a total function defaulting
    to 0 (it is a `defaultdict(int)`), and `user_last_seen` as an
    `Option`-valued map.
  * The histogram `user_request_duration_seconds` is declared in the source
    but never observed anywhere in the module, so it carries no state here.
-/

namespace UserStats

/-- ASCII reading of Python's `\s` class (also used by `str.strip()`). -/
def isWS (c : Char) : Bool :=
  c == ' ' || c == '\t' || c == '\n' || c == '\r' || c == '\x0b' || c == '\x0c'

/-- Python `\S`. -/
def notWS (c : Char) : Bool := !(isWS c)

/-- Python `[^\]]`. -/
def notRB (c : Char) : Bool := c != ']'

/-- Python `[^"]`. -/
def notQ (c : Char) : Bool := c != '"'

/-- Python `\d` (ASCII). -/
def isDigitC (c : Char) : Bool := c.isDigit

/-- Python `[\d.]`, the class of the `rt=` capture. -/
def rtChar (c : Char) : Bool := c.isDigit || c == '.'

/-- Python `line.strip()` (ASCII whitespace). -/
def pyStrip (l : List Char) : List Char :=
  ((l.dropWhile isWS).reverse.dropWhile isWS).reverse

/-- Maximal-munch match of a `class+` regex element: the (nonempty) maximal
run of characters satisfying `p`, together with the rest of the input. -/
def takeTok (p : Char → Bool) (l : List Char) : Option (List Char × List Char) :=
  if l.takeWhile p = [] then none else some (l.takeWhile p, l.dropWhile p)

/-- Maximal-munch match of a `class*` regex element (always succeeds). -/
def takeTok0 (p : Char → Bool) (l : List Char) : List Char × List Char :=
  (l.takeWhile p, l.dropWhile p)

/-- Match a literal string (a run of literal regex characters). -/
def dropLit : List Char → List Char → Option (List Char)
  | [], l => some l
  | _ :: _, [] => none
  | c :: cs, d :: ds => if c == d then dropLit cs ds else none

/-- The captures shared by the enhanced and the basic grammar:
groups 1-11 of the regexes in `parse_log_line`
(`^(\S+) - (\S+) \[([^\]]+)\] "(\S+) (\S+) ([^"]+)" (\d+) (\d+) "([^"]*)" "([^"]*)" "([^"]*)"`). -/
structure RawCommon where
  addr : List Char
  user : List Char
  ts : List Char
  method : List Char
  uri : List Char
  proto : List Char
  status : List Char
  bytes : List Char
  referer : List Char
  agent : List Char
  xff : List Char
deriving DecidableEq, Repr

/-- Regex elements `(\S+) - (\S+) \[([^\]]+)\] "`: address, user, timestamp
captures, and the rest of the input. -/
def parseAddrUserTs (l : List Char) :
    Option (List Char × List Char × List Char × List Char) :=
  match takeTok notWS l with
  | none => none
  | some (addr, l) =>
    match dropLit (" - ".toList) l with
    | none => none
    | some l =>
      match takeTok notWS l with
      | none => none
      | some (user, l) =>
        match dropLit (" [".toList) l with
        | none => none
        | some l =>
          match takeTok notRB l with
          | none => none
          | some (ts, l) =>
            match dropLit ("] \"".toList) l with
            | none => none
            | some l => some (addr, user, ts, l)

/-- Regex elements `(\S+) (\S+) ([^"]+)" `: method, uri, protocol captures,
and the rest of the input. -/
def parseRequestPart (l : List Char) :
    Option (List Char × List Char × List Char × List Char) :=
  match takeTok notWS l with
  | none => none
  | some (method, l) =>
    match dropLit (" ".toList) l with
    | none => none
    | some l =>
      match takeTok notWS l with
      | none => none
      | some (uri, l) =>
        match dropLit (" ".toList) l with
        | none => none
        | some l =>
          match takeTok notQ l with
          | none => none
          | some (proto, l) =>
            match dropLit ("\" ".toList) l with
            | none => none
            | some l => some (method, uri, proto, l)

/-- Regex elements `(\d+) (\d+) "`: status and bytes captures, and the rest
of the input. -/
def parseStatusBytes (l : List Char) :
    Option (List Char × List Char × List Char) :=
  match takeTok isDigitC l with
  | none => none
  | some (status, l) =>
    match dropLit (" ".toList) l with
    | none => none
    | some l =>
      match takeTok isDigitC l with
      | none => none
      | some (bytes, l) =>
        match dropLit (" \"".toList) l with
        | none => none
        | some l => some (status, bytes, l)

/-- Regex elements `([^"]*)" "([^"]*)" "([^"]*)"`: referer, agent and
x-forwarded-for captures, and the rest of the input. -/
def parseQuoted3 (l : List Char) :
    Option (List Char × List Char × List Char × List Char) :=
  match takeTok0 notQ l with
  | (referer, l) =>
    match dropLit ("\" \"".toList) l with
    | none => none
    | some l =>
      match takeTok0 notQ l with
      | (agent, l) =>
        match dropLit ("\" \"".toList) l with
        | none => none
        | some l =>
          match takeTok0 notQ l with
          | (xff, l) =>
            match dropLit ("\"".toList) l with
            | none => none
            | some l => some (referer, agent, xff, l)

/-- Deterministic equivalent of matching the basic pattern at the start of
the input (the common prefix of both regexes); returns the captures and the
unconsumed rest of the line. -/
def parseCommon (l : List Char) : Option (RawCommon × List Char) :=
  match parseAddrUserTs l with
  | none => none
  | some (addr, user, ts, l) =>
    match parseRequestPart l with
    | none => none
    | some (method, uri, proto, l) =>
      match parseStatusBytes l with
      | none => none
      | some (status, bytes, l) =>
        match parseQuoted3 l with
        | none => none
        | some (referer, agent, xff, l) =>
          some (⟨addr, user, ts, method, uri, proto, status, bytes,
                 referer, agent, xff⟩, l)

/-- Regex elements ` rt=([\d.]+) uct="([^"]*)" uht="([^"]*)" urt="([^"]*)"`:
the timing suffix of the enhanced pattern; returns the `rt=` capture. -/
def parseTimingSuffix (l : List Char) : Option (List Char) :=
  match dropLit (" rt=".toList) l with
  | none => none
  | some l =>
    match takeTok rtChar l with
    | none => none
    | some (rt, l) =>
      match dropLit (" uct=\"".toList) l with
      | none => none
      | some l =>
        match takeTok0 notQ l with
        | (_uct, l) =>
          match dropLit ("\" uht=\"".toList) l with
          | none => none
          | some l =>
            match takeTok0 notQ l with
            | (_uht, l) =>
              match dropLit ("\" urt=\"".toList) l with
              | none => none
              | some l =>
                match takeTok0 notQ l with
                | (_urt, l) =>
                  match dropLit ("\"".toList) l with
                  | none => none
                  | some _ => some rt

/-- Deterministic equivalent of matching the enhanced pattern: the common
prefix followed by the timing suffix; returns the common captures and the
`rt=` token (group 12). -/
def parseEnhanced (l : List Char) : Option (RawCommon × List Char) :=
  match parseCommon l with
  | none => none
  | some (c, l) =>
    match parseTimingSuffix l with
    | none => none
    | some rt => some (c, rt)

/-- Numeric value of a digit string (Python `int` of a `\d+` capture). -/
def natOfDigits (cs : List Char) : Nat :=
  cs.foldl (fun n c => 10 * n + (c.toNat - 48)) 0

/-- Python `float(token)` for a token drawn from `[\d.]+`: defined exactly
when the token has at most one dot and at least one digit, in which case the
value is the decimal value `intpart.fracpart` (modelled exactly in `ℚ`);
otherwise `float` raises `ValueError`, modelled as `none`. -/
def pyFloatOfToken (cs : List Char) : Option ℚ :=
  if cs.count '.' ≤ 1 ∧ cs.any isDigitC = true then
    let ip := cs.takeWhile (fun c => c != '.')
    let fp := (cs.dropWhile (fun c => c != '.')).drop 1
    some (mkRat (natOfDigits ip * 10 ^ fp.length + natOfDigits fp) (10 ^ fp.length))
  else none

/-- Python `request_time and request_time > 600.0` (line 154).  A present
value `0.0` is falsy in Python, but `0.0 > 600.0` is false anyway, so the
test is equivalent to: a duration is present and exceeds 600. -/
def durGt600 : Option ℚ → Bool
  | none => false
  | some t => decide (600 < t)

/-- `uri.startswith(pre)` on the character-list level. -/
def startsWithL : List Char → List Char → Bool
  | [], _ => true
  | _ :: _, [] => false
  | a :: as, b :: bs => a == b && startsWithL as bs

/-- The dictionary returned by `parse_log_line` on success. -/
structure LogEntry where
  user_ip : String
  time : String
  method : String
  uri : String
  route : String
  status : String
  bytes_sent : ℤ
  request_time : Option ℚ
  rate_limit_hit : Bool
  timeout_hit : Bool
  timeout_type : String
deriving DecidableEq, Repr

/-- Lines 135-170 of `parse_log_line`: route bucketing, rate-limit
detection, timeout classification, and assembly of the result record.
`bytes_sent` is `int(match.group(8))`: group 8 is a `\d+` capture, hence a
nonempty digit string (the `else 0` branch of the Python conditional is
unreachable).  `rt` is the already-converted optional `request_time`. -/
def mkEntry (c : RawCommon) (rt : Option ℚ) : LogEntry :=
  let uriS := String.mk c.uri
  let statusS := String.mk c.status
  let route :=
    if startsWithL ("/server1".toList) c.uri then "/server1"
    else if startsWithL ("/server2".toList) c.uri then "/server2"
    else "/"
  let tk : Bool × String :=
    if statusS = "504" then (true, "gateway_timeout")
    else if statusS = "408" then (true, "request_timeout")
    else if durGt600 rt then (true, "response_timeout")
    else (false, "")
  { user_ip := String.mk c.addr
    time := String.mk c.ts
    method := String.mk c.method
    uri := uriS
    route := route
    status := statusS
    bytes_sent := (natOfDigits c.bytes : ℤ)
    request_time := rt
    rate_limit_hit := statusS = "429"
    timeout_hit := tk.1
    timeout_type := tk.2 }

/-- `parse_log_line` on the character list of the line: strip, try the
enhanced grammar (where `float(group(12))` may raise `ValueError`, caught by
the surrounding `except`, giving `None`), otherwise fall back to the basic
grammar, otherwise `None`. -/
def parseLine (l : List Char) : Option LogEntry :=
  let l := pyStrip l
  match parseEnhanced l with
  | some (c, rtTok) =>
      match pyFloatOfToken rtTok with
      | some rt => some (mkEntry c (some rt))
      | none => none
  | none =>
      match parseCommon l with
      | some (c, _) => some (mkEntry c none)
      | none => none

/-- `parse_log_line(line)`. -/
def parse_log_line (line : String) : Option LogEntry :=
  parseLine line.toList

/-- The mutable state of the exporter process: every Prometheus counter or
gauge family (a map from its label tuple to the accumulator value, all
values starting at 0 / unset), plus the module-level dictionaries
`active_users` (a `defaultdict(int)`) and `user_last_seen`.
Counter label orders follow the source declarations:
`user_requests_total{user_ip, status, method, route}`,
`user_bytes_total{user_ip, direction}`,
`rate_limit_hits_total{user_ip, route, http_method}`,
`rate_limit_hits_global_total{route, http_method}`,
`timeout_events_total{user_ip, route, timeout_type, http_method}`,
`timeout_events_global_total{route, timeout_type, http_method}`. -/
structure MetricState where
  user_requests_total : String × String × String × String → ℤ
  user_bytes_total : String × String → ℤ
  rate_limit_hits_total : String × String × String → ℤ
  rate_limit_hits_global_total : String × String → ℤ
  timeout_events_total : String × String × String × String → ℤ
  timeout_events_global_total : String × String × String → ℤ
  active_users : String → ℕ
  user_last_seen : String → Option ℚ
  user_last_request_time : String → Option ℚ
  user_active_connections : String → Option ℕ
  user_requests_per_second : String → Option ℚ

/-- Process start: all accumulators at zero, no gauges set, empty
dictionaries. -/
def initState : MetricState where
  user_requests_total := fun _ => 0
  user_bytes_total := fun _ => 0
  rate_limit_hits_total := fun _ => 0
  rate_limit_hits_global_total := fun _ => 0
  timeout_events_total := fun _ => 0
  timeout_events_global_total := fun _ => 0
  active_users := fun _ => 0
  user_last_seen := fun _ => none
  user_last_request_time := fun _ => none
  user_active_connections := fun _ => none
  user_requests_per_second := fun _ => none

/-- `metric.labels(k).inc(amt)`: add `amt` to the accumulator at label
tuple `k`. -/
def bump {α : Type} [DecidableEq α] (f : α → ℤ) (k : α) (amt : ℤ) : α → ℤ :=
  fun x => if x = k then f x + amt else f x

/-- The per-line body of `process_log_file` (lines 208-260): parse the line;
on failure do nothing; on success increment the request and byte counters,
the rate-limit counters when `rate_limit_hit`, the timeout counters when
`timeout_hit`, and update the activity dictionaries and the
last-request-time gauge with the batch timestamp `now`. -/
def processLine (now : ℚ) (s : MetricState) (line : String) : MetricState :=
  match parse_log_line line with
  | none => s
  | some e =>
    let s1 := { s with
      user_requests_total :=
        bump s.user_requests_total (e.user_ip, e.status, e.method, e.route) 1 }
    let s2 := { s1 with
      user_bytes_total :=
        bump s1.user_bytes_total (e.user_ip, "sent") e.bytes_sent }
    let s3 :=
      if e.rate_limit_hit then
        { s2 with
          rate_limit_hits_total :=
            bump s2.rate_limit_hits_total (e.user_ip, e.route, e.method) 1
          rate_limit_hits_global_total :=
            bump s2.rate_limit_hits_global_total (e.route, e.method) 1 }
      else s2
    let s4 :=
      if e.timeout_hit then
        { s3 with
          timeout_events_total :=
            bump s3.timeout_events_total
              (e.user_ip, e.route, e.timeout_type, e.method) 1
          timeout_events_global_total :=
            bump s3.timeout_events_global_total
              (e.route, e.timeout_type, e.method) 1 }
      else s3
    { s4 with
      active_users := fun ip =>
        if ip = e.user_ip then s4.active_users ip + 1 else s4.active_users ip
      user_last_seen := fun ip =>
        if ip = e.user_ip then some now else s4.user_last_seen ip
      user_last_request_time := fun ip =>
        if ip = e.user_ip then some now else s4.user_last_request_time ip }

/-- One `process_log_file` batch over a list of new lines (the file-offset
bookkeeping is I/O plumbing outside the core). -/
def processLines (now : ℚ) (s : MetricState) (lines : List String) : MetricState :=
  lines.foldl (processLine now) s

/-- Run a whole line sequence from process start. -/
def runLines (now : ℚ) (lines : List String) : MetricState :=
  processLines now initState lines

/-- `update_active_connections` (lines 268-280): for every client tracked in
`user_last_seen`, if it was seen less than 60 seconds ago set its
active-connections gauge to `min(recent_requests, 10)`; otherwise set the
gauge to 0 and reset its `active_users` count to 0. -/
def update_active_connections (now : ℚ) (s : MetricState) : MetricState :=
  { s with
    user_active_connections := fun ip =>
      match s.user_last_seen ip with
      | none => s.user_active_connections ip
      | some t =>
        if now - t < 60 then some (min (s.active_users ip) 10) else some 0
    active_users := fun ip =>
      match s.user_last_seen ip with
      | none => s.active_users ip
      | some t => if now - t < 60 then s.active_users ip else 0 }

/-- `calculate_requests_per_second` (lines 283-292): for every client
tracked in `user_last_seen`, set its requests-per-second gauge to
`count / 60` when its `active_users` count is positive, else to 0.
(In every reachable state each key of `user_last_seen` is also a key of the
`active_users` dictionary — both are written together in
`process_log_file`, and `update_active_connections` writes `0` rather than
deleting — so the source's `if user_ip in active_users` membership test is
always true for tracked clients.) -/
def calculate_requests_per_second (s : MetricState) : MetricState :=
  { s with
    user_requests_per_second := fun ip =>
      match s.user_last_seen ip with
      | none => s.user_requests_per_second ip
      | some _ =>
        some (if 0 < s.active_users ip then (s.active_users ip : ℚ) / 60 else 0) }

/-- One tick of `log_processor_loop` after the ingestion step:
`update_active_connections()` followed by `calculate_requests_per_second()`. -/
def refreshTick (now : ℚ) (s : MetricState) : MetricState :=
  calculate_requests_per_second (update_active_connections now s)

/-- The client addresses of the lines accepted by the parser, in order. -/
def clientsOf (lines : List String) : List String :=
  lines.filterMap fun l => (parse_log_line l).map LogEntry.user_ip

/-- The set of client addresses occurring in a line sequence. -/
def clientsFinset (lines : List String) : Finset String :=
  (clientsOf lines).toFinset

/-- A per-client counter family `pc` (keyed by a client address paired with
the remaining labels) and its global aggregate `g` are in lockstep over the
client set `S`: `g` is the client-wise sum of `pc`, and `pc` vanishes
outside `S`. -/
def SumInv {β : Type} (S : Finset String) (pc : String × β → ℤ) (g : β → ℤ) : Prop :=
  (∀ b, g b = ∑ c ∈ S, pc (c, b)) ∧ ∀ c b, c ∉ S → pc (c, b) = 0

/-- A token is a nonempty run of characters of a class (`class+`). -/
def tok1 (p : Char → Bool) (t : List Char) : Prop :=
  t ≠ [] ∧ ∀ c ∈ t, p c = true

/-- A token is a possibly-empty run of characters of a class (`class*`). -/
def tok0 (p : Char → Bool) (t : List Char) : Prop :=
  ∀ c ∈ t, p c = true

instance tok1.decidable (p : Char → Bool) (t : List Char) :
    Decidable (tok1 p t) :=
  inferInstanceAs (Decidable (t ≠ [] ∧ ∀ c ∈ t, p c = true))

instance tok0.decidable (p : Char → Bool) (t : List Char) :
    Decidable (tok0 p t) :=
  inferInstanceAs (Decidable (∀ c ∈ t, p c = true))

section ParserLemmas

lemma takeWhile_append_of_all {p : Char → Bool} {t r : List Char}
    (h2 : ∀ c ∈ t, p c = true) (h3 : ∀ c, r.head? = some c → p c = false) :
    (t ++ r).takeWhile p = t ∧ (t ++ r).dropWhile p = r := by
  induction t with
  | nil =>
    simp only [List.nil_append]
    cases r with
    | nil => simp
    | cons a as =>
      have ha := h3 a rfl
      simp [List.takeWhile_cons, List.dropWhile_cons, ha]
  | cons a as ih =>
    have ha : p a = true := h2 a (by simp)
    have ih' := ih (fun c hc => h2 c (by simp [hc]))
    simp [List.takeWhile_cons, List.dropWhile_cons, ha, ih'.1, ih'.2]

lemma takeTok_append {p : Char → Bool} {t r : List Char}
    (h : tok1 p t) (h3 : ∀ c, r.head? = some c → p c = false) :
    takeTok p (t ++ r) = some (t, r) := by
  have hw := takeWhile_append_of_all h.2 h3
  simp [takeTok, hw.1, hw.2, h.1]

lemma takeTok0_append {p : Char → Bool} {t r : List Char}
    (h : tok0 p t) (h3 : ∀ c, r.head? = some c → p c = false) :
    takeTok0 p (t ++ r) = (t, r) := by
  have hw := takeWhile_append_of_all h h3
  simp [takeTok0, hw.1, hw.2]

lemma takeTok_sound {p : Char → Bool} {l t r : List Char}
    (h : takeTok p l = some (t, r)) : tok1 p t := by
  rw [takeTok] at h
  split at h
  · cases h
  · rename_i hne
    simp only [Option.some.injEq, Prod.mk.injEq] at h
    obtain ⟨h1, _⟩ := h
    subst h1
    exact ⟨hne, fun c hc => List.mem_takeWhile_imp hc⟩

lemma dropLit_append (d r : List Char) : dropLit d (d ++ r) = some r := by
  induction d with
  | nil => rfl
  | cons c cs ih => simp [dropLit, ih]

lemma dropWhile_eq_self_of_head {p : Char → Bool} {l : List Char}
    (h : ∀ c, l.head? = some c → p c = false) : l.dropWhile p = l := by
  cases l with
  | nil => rfl
  | cons a as => simp [List.dropWhile_cons, h a rfl]

lemma pyStrip_eq_self {l : List Char}
    (h1 : ∀ c, l.head? = some c → isWS c = false)
    (h2 : ∀ c, l.getLast? = some c → isWS c = false) : pyStrip l = l := by
  unfold pyStrip
  rw [dropWhile_eq_self_of_head h1]
  rw [dropWhile_eq_self_of_head (fun c hc => h2 c (by rwa [List.head?_reverse] at hc))]
  simp

lemma head?_append_left {α : Type} {l1 l2 : List α} (h : l1 ≠ []) :
    (l1 ++ l2).head? = l1.head? := by
  cases l1 with
  | nil => exact absurd rfl h
  | cons a as => rfl

lemma getLast?_append_right {α : Type} {l1 l2 : List α} (h : l2 ≠ []) :
    (l1 ++ l2).getLast? = l2.getLast? := by
  induction l1 with
  | nil => rfl
  | cons a as ih =>
    cases hl : as ++ l2 with
    | nil =>
      rcases List.append_eq_nil.mp hl with ⟨_, rfl⟩
      exact absurd rfl h
    | cons b bs =>
      rw [List.cons_append, hl, List.getLast?_cons_cons, ← hl, ih]

end ParserLemmas

/-- A log line assembled from its tokens in the shape shared by both
grammars, followed by arbitrary trailing text `tl` (the basic regex is not
anchored at the end of the line). -/
def logLineL (addr user ts method uri proto status bytes referer agent xff
    tl : List Char) : List Char :=
  addr ++ " - ".toList ++ user ++ " [".toList ++ ts ++ "] \"".toList ++
    method ++ " ".toList ++ uri ++ " ".toList ++ proto ++ "\" ".toList ++
    status ++ " ".toList ++ bytes ++ " \"".toList ++ referer ++
    "\" \"".toList ++ agent ++ "\" \"".toList ++ xff ++ "\"".toList ++ tl

/-- The timing suffix ` rt=... uct="..." uht="..." urt="..."` of the
enhanced grammar, assembled from its tokens. -/
def timingSuffixL (rt uct uht urt : List Char) : List Char :=
  " rt=".toList ++ rt ++ " uct=\"".toList ++ uct ++ "\" uht=\"".toList ++
    uht ++ "\" urt=\"".toList ++ urt ++ "\"".toList

section BuildLemmas

lemma headFails_cons {p : Char → Bool} {a : Char} (l : List Char)
    (h : p a = false) : ∀ c, ((a :: l) : List Char).head? = some c → p c = false := by
  intro c hc
  rw [List.head?_cons, Option.some.injEq] at hc
  rwa [← hc]

lemma takeTok_append_cons {p : Char → Bool} {t : List Char} (h : tok1 p t)
    (a : Char) (h2 : p a = false) (r : List Char) :
    takeTok p (t ++ a :: r) = some (t, a :: r) :=
  takeTok_append h (headFails_cons _ h2)

lemma takeTok0_append_cons {p : Char → Bool} {t : List Char} (h : tok0 p t)
    (a : Char) (h2 : p a = false) (r : List Char) :
    takeTok0 p (t ++ a :: r) = (t, a :: r) :=
  takeTok0_append h (headFails_cons _ h2)

lemma dropLit_dash (r : List Char) :
    dropLit " - ".toList (' ' :: '-' :: ' ' :: r) = some r := dropLit_append _ _

lemma dropLit_obrk (r : List Char) :
    dropLit " [".toList (' ' :: '[' :: r) = some r := dropLit_append _ _

lemma dropLit_cbrkq (r : List Char) :
    dropLit "] \"".toList (']' :: ' ' :: '"' :: r) = some r := dropLit_append _ _

lemma dropLit_sp (r : List Char) :
    dropLit " ".toList (' ' :: r) = some r := dropLit_append _ _

lemma dropLit_qsp (r : List Char) :
    dropLit "\" ".toList ('"' :: ' ' :: r) = some r := dropLit_append _ _

lemma dropLit_spq (r : List Char) :
    dropLit " \"".toList (' ' :: '"' :: r) = some r := dropLit_append _ _

lemma dropLit_qspq (r : List Char) :
    dropLit "\" \"".toList ('"' :: ' ' :: '"' :: r) = some r := dropLit_append _ _

lemma dropLit_q (r : List Char) :
    dropLit "\"".toList ('"' :: r) = some r := dropLit_append _ _

lemma dropLit_rt (r : List Char) :
    dropLit " rt=".toList (' ' :: 'r' :: 't' :: '=' :: r) = some r := dropLit_append _ _

lemma dropLit_uct (r : List Char) :
    dropLit " uct=\"".toList (' ' :: 'u' :: 'c' :: 't' :: '=' :: '"' :: r) = some r :=
  dropLit_append _ _

lemma dropLit_uht (r : List Char) :
    dropLit "\" uht=\"".toList ('"' :: ' ' :: 'u' :: 'h' :: 't' :: '=' :: '"' :: r) = some r :=
  dropLit_append _ _

lemma dropLit_urt (r : List Char) :
    dropLit "\" urt=\"".toList ('"' :: ' ' :: 'u' :: 'r' :: 't' :: '=' :: '"' :: r) = some r :=
  dropLit_append _ _

lemma parseAddrUserTs_build {addr user ts : List Char} (rest : List Char)
    (h1 : tok1 notWS addr) (h2 : tok1 notWS user) (h3 : tok1 notRB ts) :
    parseAddrUserTs (addr ++ ' ' :: '-' :: ' ' :: (user ++ ' ' :: '[' ::
      (ts ++ ']' :: ' ' :: '"' :: rest))) = some (addr, user, ts, rest) := by
  simp only [parseAddrUserTs, takeTok_append_cons h1 ' ' rfl,
    takeTok_append_cons h2 ' ' rfl, takeTok_append_cons h3 ']' rfl,
    dropLit_dash, dropLit_obrk, dropLit_cbrkq]

lemma parseRequestPart_build {method uri proto : List Char} (rest : List Char)
    (h1 : tok1 notWS method) (h2 : tok1 notWS uri) (h3 : tok1 notQ proto) :
    parseRequestPart (method ++ ' ' :: (uri ++ ' ' :: (proto ++ '"' :: ' ' ::
      rest))) = some (method, uri, proto, rest) := by
  simp only [parseRequestPart, takeTok_append_cons h1 ' ' rfl,
    takeTok_append_cons h2 ' ' rfl, takeTok_append_cons h3 '"' rfl,
    dropLit_sp, dropLit_qsp]

lemma parseStatusBytes_build {status bytes : List Char} (rest : List Char)
    (h1 : tok1 isDigitC status) (h2 : tok1 isDigitC bytes) :
    parseStatusBytes (status ++ ' ' :: (bytes ++ ' ' :: '"' :: rest)) =
      some (status, bytes, rest) := by
  simp only [parseStatusBytes, takeTok_append_cons h1 ' ' rfl,
    takeTok_append_cons h2 ' ' rfl, dropLit_sp, dropLit_spq]

lemma parseQuoted3_build {referer agent xff : List Char} (rest : List Char)
    (h1 : tok0 notQ referer) (h2 : tok0 notQ agent) (h3 : tok0 notQ xff) :
    parseQuoted3 (referer ++ '"' :: ' ' :: '"' :: (agent ++ '"' :: ' ' :: '"' ::
      (xff ++ '"' :: rest))) = some (referer, agent, xff, rest) := by
  simp only [parseQuoted3, takeTok0_append_cons h1 '"' rfl,
    takeTok0_append_cons h2 '"' rfl, takeTok0_append_cons h3 '"' rfl,
    dropLit_qspq, dropLit_q]

lemma parseTimingSuffix_build {rt uct uht urt : List Char} (rest : List Char)
    (h1 : tok1 rtChar rt) (h2 : tok0 notQ uct) (h3 : tok0 notQ uht)
    (h4 : tok0 notQ urt) :
    parseTimingSuffix (' ' :: 'r' :: 't' :: '=' :: (rt ++ ' ' :: 'u' :: 'c' ::
      't' :: '=' :: '"' :: (uct ++ '"' :: ' ' :: 'u' :: 'h' :: 't' :: '=' ::
      '"' :: (uht ++ '"' :: ' ' :: 'u' :: 'r' :: 't' :: '=' :: '"' ::
      (urt ++ '"' :: rest))))) = some rt := by
  simp only [parseTimingSuffix, takeTok_append_cons h1 ' ' rfl,
    takeTok0_append_cons h2 '"' rfl, takeTok0_append_cons h3 '"' rfl,
    takeTok0_append_cons h4 '"' rfl, dropLit_rt, dropLit_uct, dropLit_uht,
    dropLit_urt, dropLit_q]

lemma logLineL_cons (addr user ts method uri proto status bytes referer agent
    xff tl : List Char) :
    logLineL addr user ts method uri proto status bytes referer agent xff tl =
      addr ++ ' ' :: '-' :: ' ' :: (user ++ ' ' :: '[' :: (ts ++ ']' :: ' ' ::
      '"' :: (method ++ ' ' :: (uri ++ ' ' :: (proto ++ '"' :: ' ' ::
      (status ++ ' ' :: (bytes ++ ' ' :: '"' :: (referer ++ '"' :: ' ' :: '"' ::
      (agent ++ '"' :: ' ' :: '"' :: (xff ++ '"' :: tl)))))))))) := by
  simp only [logLineL, List.append_assoc]
  rfl

lemma timingSuffixL_cons (rt uct uht urt : List Char) :
    timingSuffixL rt uct uht urt =
      ' ' :: 'r' :: 't' :: '=' :: (rt ++ ' ' :: 'u' :: 'c' :: 't' :: '=' ::
      '"' :: (uct ++ '"' :: ' ' :: 'u' :: 'h' :: 't' :: '=' :: '"' ::
      (uht ++ '"' :: ' ' :: 'u' :: 'r' :: 't' :: '=' :: '"' ::
      (urt ++ '"' :: [])))) := by
  simp only [timingSuffixL, List.append_assoc]
  rfl

lemma parseCommon_build {addr user ts method uri proto status bytes referer
    agent xff : List Char} (tl : List Char)
    (h1 : tok1 notWS addr) (h2 : tok1 notWS user) (h3 : tok1 notRB ts)
    (h4 : tok1 notWS method) (h5 : tok1 notWS uri) (h6 : tok1 notQ proto)
    (h7 : tok1 isDigitC status) (h8 : tok1 isDigitC bytes)
    (h9 : tok0 notQ referer) (h10 : tok0 notQ agent) (h11 : tok0 notQ xff) :
    parseCommon (logLineL addr user ts method uri proto status bytes referer
      agent xff tl) =
      some (⟨addr, user, ts, method, uri, proto, status, bytes, referer,
        agent, xff⟩, tl) := by
  rw [logLineL_cons]
  simp only [parseCommon, parseAddrUserTs_build _ h1 h2 h3,
    parseRequestPart_build _ h4 h5 h6, parseStatusBytes_build _ h7 h8,
    parseQuoted3_build _ h9 h10 h11]

lemma logLineL_front (addr user ts method uri proto status bytes referer agent
    xff tl : List Char) :
    logLineL addr user ts method uri proto status bytes referer agent xff tl =
      (addr ++ " - ".toList ++ user ++ " [".toList ++ ts ++ "] \"".toList ++
        method ++ " ".toList ++ uri ++ " ".toList ++ proto ++ "\" ".toList ++
        status ++ " ".toList ++ bytes ++ " \"".toList ++ referer ++
        "\" \"".toList ++ agent ++ "\" \"".toList ++ xff) ++ '"' :: tl := by
  simp only [logLineL, List.append_assoc]
  rfl

lemma pyStrip_logLineL {addr : List Char} (user ts method uri proto status
    bytes referer agent xff tl : List Char) (haddr : tok1 notWS addr)
    (htl : ∀ c, tl.getLast? = some c → isWS c = false) :
    pyStrip (logLineL addr user ts method uri proto status bytes referer agent
      xff tl) =
      logLineL addr user ts method uri proto status bytes referer agent xff tl := by
  apply pyStrip_eq_self
  · intro c hc
    obtain ⟨a, as, rfl⟩ : ∃ a as, addr = a :: as := by
      cases addr with
      | nil => exact absurd rfl haddr.1
      | cons a as => exact ⟨a, as, rfl⟩
    rw [logLineL_cons, List.cons_append, List.head?_cons, Option.some.injEq] at hc
    subst hc
    have ha := haddr.2 a (by simp)
    simp only [notWS, Bool.not_eq_true'] at ha
    exact ha
  · intro c hc
    rw [logLineL_front, getLast?_append_right (List.cons_ne_nil _ _)] at hc
    cases tl with
    | nil =>
      rw [List.getLast?_singleton, Option.some.injEq] at hc
      subst hc
      rfl
    | cons d ds =>
      rw [show ('"' :: d :: ds : List Char) = ['"'] ++ (d :: ds) from rfl,
        getLast?_append_right (List.cons_ne_nil _ _)] at hc
      exact htl c hc

lemma parseEnhanced_build {addr user ts method uri proto status bytes referer
    agent xff rt uct uht urt : List Char}
    (h1 : tok1 notWS addr) (h2 : tok1 notWS user) (h3 : tok1 notRB ts)
    (h4 : tok1 notWS method) (h5 : tok1 notWS uri) (h6 : tok1 notQ proto)
    (h7 : tok1 isDigitC status) (h8 : tok1 isDigitC bytes)
    (h9 : tok0 notQ referer) (h10 : tok0 notQ agent) (h11 : tok0 notQ xff)
    (h12 : tok1 rtChar rt) (h13 : tok0 notQ uct) (h14 : tok0 notQ uht)
    (h15 : tok0 notQ urt) :
    parseEnhanced (logLineL addr user ts method uri proto status bytes referer
      agent xff (timingSuffixL rt uct uht urt)) =
      some (⟨addr, user, ts, method, uri, proto, status, bytes, referer,
        agent, xff⟩, rt) := by
  simp only [parseEnhanced,
    parseCommon_build _ h1 h2 h3 h4 h5 h6 h7 h8 h9 h10 h11,
    timingSuffixL_cons, parseTimingSuffix_build _ h12 h13 h14 h15]

lemma parseEnhanced_basic_fails {addr user ts method uri proto status bytes
    referer agent xff : List Char}
    (h1 : tok1 notWS addr) (h2 : tok1 notWS user) (h3 : tok1 notRB ts)
    (h4 : tok1 notWS method) (h5 : tok1 notWS uri) (h6 : tok1 notQ proto)
    (h7 : tok1 isDigitC status) (h8 : tok1 isDigitC bytes)
    (h9 : tok0 notQ referer) (h10 : tok0 notQ agent) (h11 : tok0 notQ xff) :
    parseEnhanced (logLineL addr user ts method uri proto status bytes referer
      agent xff []) = none := by
  have hsfx : parseTimingSuffix [] = none := rfl
  simp only [parseEnhanced,
    parseCommon_build _ h1 h2 h3 h4 h5 h6 h7 h8 h9 h10 h11, hsfx]

end BuildLemmas

section ShapeLemmas

lemma parseLine_shape {l : List Char} {e : LogEntry}
    (h : parseLine l = some e) : ∃ c rt, e = mkEntry c rt := by
  rw [parseLine] at h
  split at h
  · rename_i c rtTok _
    split at h
    · rename_i rtv _
      exact ⟨c, some rtv, (Option.some.inj h).symm⟩
    · exact Option.noConfusion h
  · split at h
    · rename_i c _ _
      exact ⟨c, none, (Option.some.inj h).symm⟩
    · exact Option.noConfusion h

lemma parseStatusBytes_sound {l status bytes rest : List Char}
    (h : parseStatusBytes l = some (status, bytes, rest)) :
    tok1 isDigitC status ∧ tok1 isDigitC bytes := by
  rw [parseStatusBytes] at h
  split at h
  · exact Option.noConfusion h
  · rename_i st l1 hst
    split at h
    · exact Option.noConfusion h
    · split at h
      · exact Option.noConfusion h
      · rename_i by2 l3 hby
        split at h
        · exact Option.noConfusion h
        · simp only [Option.some.injEq, Prod.mk.injEq] at h
          obtain ⟨rfl, rfl, -⟩ := h
          exact ⟨takeTok_sound hst, takeTok_sound hby⟩

lemma parseCommon_bytes {l : List Char} {c : RawCommon} {rest : List Char}
    (h : parseCommon l = some (c, rest)) : tok1 isDigitC c.bytes := by
  rw [parseCommon] at h
  split at h
  · exact Option.noConfusion h
  · split at h
    · exact Option.noConfusion h
    · split at h
      · exact Option.noConfusion h
      · rename_i st by2 l3 hsb
        split at h
        · exact Option.noConfusion h
        · simp only [Option.some.injEq, Prod.mk.injEq] at h
          obtain ⟨rfl, -⟩ := h
          exact (parseStatusBytes_sound hsb).2

lemma parseEnhanced_common {l : List Char} {c : RawCommon} {rt : List Char}
    (h : parseEnhanced l = some (c, rt)) :
    ∃ rest, parseCommon l = some (c, rest) := by
  rw [parseEnhanced] at h
  split at h
  · exact Option.noConfusion h
  · rename_i c2 l2 hc
    split at h
    · exact Option.noConfusion h
    · simp only [Option.some.injEq, Prod.mk.injEq] at h
      obtain ⟨rfl, rfl⟩ := h
      exact ⟨l2, hc⟩

end ShapeLemmas

section StateLemmas

lemma bump_apply {α : Type} [DecidableEq α] (f : α → ℤ) (k : α) (amt : ℤ)
    (x : α) : bump f k amt x = f x + (if x = k then amt else 0) := by
  unfold bump
  split <;> simp

lemma bump_self {α : Type} [DecidableEq α] (f : α → ℤ) (k : α) (amt : ℤ) :
    bump f k amt k = f k + amt := by
  simp [bump]

/-- Field-wise normal form of `processLine` on an accepted line. -/
lemma processLine_some {now : ℚ} {s : MetricState} {line : String}
    {e : LogEntry} (h : parse_log_line line = some e) :
    processLine now s line =
      { user_requests_total :=
          bump s.user_requests_total (e.user_ip, e.status, e.method, e.route) 1
        user_bytes_total :=
          bump s.user_bytes_total (e.user_ip, "sent") e.bytes_sent
        rate_limit_hits_total :=
          if e.rate_limit_hit then
            bump s.rate_limit_hits_total (e.user_ip, e.route, e.method) 1
          else s.rate_limit_hits_total
        rate_limit_hits_global_total :=
          if e.rate_limit_hit then
            bump s.rate_limit_hits_global_total (e.route, e.method) 1
          else s.rate_limit_hits_global_total
        timeout_events_total :=
          if e.timeout_hit then
            bump s.timeout_events_total
              (e.user_ip, e.route, e.timeout_type, e.method) 1
          else s.timeout_events_total
        timeout_events_global_total :=
          if e.timeout_hit then
            bump s.timeout_events_global_total
              (e.route, e.timeout_type, e.method) 1
          else s.timeout_events_global_total
        active_users := fun ip =>
          if ip = e.user_ip then s.active_users ip + 1 else s.active_users ip
        user_last_seen := fun ip =>
          if ip = e.user_ip then some now else s.user_last_seen ip
        user_last_request_time := fun ip =>
          if ip = e.user_ip then some now else s.user_last_request_time ip
        user_active_connections := s.user_active_connections
        user_requests_per_second := s.user_requests_per_second } := by
  by_cases hr : e.rate_limit_hit <;> by_cases ht : e.timeout_hit <;>
    simp [processLine, h, hr, ht]

lemma processLine_none {now : ℚ} {s : MetricState} {line : String}
    (h : parse_log_line line = none) : processLine now s line = s := by
  simp [processLine, h]

lemma sumInv_empty {β : Type} :
    SumInv (β := β) ∅ (fun _ => 0) (fun _ => 0) :=
  ⟨fun _ => by simp, fun _ _ _ => rfl⟩

lemma SumInv.insert_skip {β : Type} {S : Finset String} {pc : String × β → ℤ}
    {g : β → ℤ} (h : SumInv S pc g) (a : String) : SumInv (insert a S) pc g := by
  obtain ⟨hg, hz⟩ := h
  refine ⟨fun b => ?_, fun c b hc => hz c b (fun h' => hc (Finset.mem_insert_of_mem h'))⟩
  by_cases ha : a ∈ S
  · rw [Finset.insert_eq_self.mpr ha]
    exact hg b
  · rw [Finset.sum_insert ha, hz a b ha, zero_add]
    exact hg b

lemma SumInv.insert_bump {β : Type} [DecidableEq β] {S : Finset String}
    {pc : String × β → ℤ} {g : β → ℤ} (h : SumInv S pc g) (a : String)
    (b0 : β) (amt : ℤ) :
    SumInv (insert a S) (bump pc (a, b0) amt) (bump g b0 amt) := by
  have hS := h.insert_skip a
  obtain ⟨hg, hz⟩ := hS
  constructor
  · intro b
    have hsplit : ∀ c, bump pc (a, b0) amt (c, b) =
        pc (c, b) + (if c = a ∧ b = b0 then amt else 0) := by
      intro c
      rw [bump_apply]
      congr 1
      simp [Prod.ext_iff]
    rw [Finset.sum_congr rfl (fun c _ => hsplit c), Finset.sum_add_distrib,
      ← hg b, bump_apply]
    congr 1
    by_cases hb : b = b0
    · subst hb
      simp only [and_true]
      rw [Finset.sum_ite_eq' (insert a S) a (fun _ => amt)]
      simp
    · simp [hb]
  · intro c b hc
    have hca : c ≠ a := fun h' => hc (h' ▸ Finset.mem_insert_self a S)
    rw [bump_apply]
    simp [hz c b hc, Prod.ext_iff, hca]

lemma processLines_append (now : ℚ) (s : MetricState) (ls : List String)
    (l : String) :
    processLines now s (ls ++ [l]) = processLine now (processLines now s ls) l := by
  simp [processLines, List.foldl_append]

/-- The per-client rate-limit and timeout counters and their global
aggregates stay in lockstep over any ingested line sequence: each global
accumulator is the client-wise sum of its per-client family, which vanishes
outside the set of clients seen. -/
lemma runLines_sumInv (now : ℚ) (lines : List String) :
    SumInv (clientsFinset lines) (runLines now lines).rate_limit_hits_total
      (runLines now lines).rate_limit_hits_global_total ∧
    SumInv (clientsFinset lines) (runLines now lines).timeout_events_total
      (runLines now lines).timeout_events_global_total := by
  induction lines using List.reverseRecOn with
  | nil =>
    constructor <;>
      exact ⟨fun b => by simp [runLines, processLines, clientsFinset,
        clientsOf, initState], fun c b _ => rfl⟩
  | append_singleton ls l ih =>
    have hrun : runLines now (ls ++ [l]) = processLine now (runLines now ls) l :=
      processLines_append now initState ls l
    cases hp : parse_log_line l with
    | none =>
      have hc : clientsFinset (ls ++ [l]) = clientsFinset ls := by
        simp [clientsFinset, clientsOf, List.filterMap_append, hp]
      rw [hrun, hc, processLine_none hp]
      exact ih
    | some e =>
      have hc : clientsFinset (ls ++ [l]) = insert e.user_ip (clientsFinset ls) := by
        ext x
        simp [clientsFinset, clientsOf, List.filterMap_append, hp, or_comm]
      rw [hrun, hc, processLine_some hp]
      constructor
      · by_cases hr : e.rate_limit_hit <;> simp only [hr, if_true, if_false, ite_true, ite_false]
        · exact ih.1.insert_bump e.user_ip (e.route, e.method) 1
        · exact ih.1.insert_skip e.user_ip
      · by_cases ht : e.timeout_hit <;> simp only [ht, if_true, if_false, ite_true, ite_false]
        · exact ih.2.insert_bump e.user_ip (e.route, e.timeout_type, e.method) 1
        · exact ih.2.insert_skip e.user_ip

end StateLemmas

/-- C1: for every parsed request the timeout classification assigns at most
one timeout kind, chosen by priority: status "504" gives `gateway_timeout`;
otherwise status "408" gives `request_timeout`; otherwise a present duration
strictly greater than 600.0 gives `response_timeout`; otherwise no timeout
(flag false, empty kind).  In particular a 504 response with duration 700 is
classified only as `gateway_timeout`. -/
theorem C1_timeout_priority (line : String) (e : LogEntry)
    (h : parse_log_line line = some e) :
    (e.timeout_hit, e.timeout_type) =
      if e.status = "504" then (true, "gateway_timeout")
      else if e.status = "408" then (true, "request_timeout")
      else if durGt600 e.request_time then (true, "response_timeout")
      else (false, "") := by
  obtain ⟨c, rt, rfl⟩ := parseLine_shape h
  rfl

def lineC1 : String :=
  "1.1.1.1 - - [t1] \"GET /server1 HTTP/1.1\" 504 10 \"-\" \"-\" \"-\" rt=700.5 uct=\"0.1\" uht=\"0.1\" urt=\"0.1\""

def entryC1 : LogEntry := mkEntry ⟨"1.1.1.1".toList, "-".toList, "t1".toList,
  "GET".toList, "/server1".toList, "HTTP/1.1".toList, "504".toList,
  "10".toList, "-".toList, "-".toList, "-".toList⟩ (some (mkRat 1401 2))

/-- C1 witness: a concrete 504 line with duration 700.5 is classified as
`gateway_timeout` only, never as `response_timeout`. -/
theorem C1_witness :
    parse_log_line lineC1 = some entryC1 ∧
      (entryC1.timeout_hit, entryC1.timeout_type) = (true, "gateway_timeout") := by
  have h : parse_log_line lineC1 = some entryC1 := by decide
  refine ⟨h, ?_⟩
  rw [C1_timeout_priority lineC1 entryC1 h]
  decide

/-- C3: a line matching neither the enhanced nor the basic grammar yields no
record, and ingesting it leaves the entire metric state unchanged. -/
theorem C3_unparseable_is_noop (line : String)
    (hE : parseEnhanced (pyStrip line.toList) = none)
    (hB : parseCommon (pyStrip line.toList) = none) :
    parse_log_line line = none ∧
      ∀ (now : ℚ) (s : MetricState), processLine now s line = s := by
  have hp : parse_log_line line = none := by
    simp only [parse_log_line, parseLine, hE, hB]
  exact ⟨hp, fun now s => processLine_none hp⟩

def lineGarbage : String := "this is not an access log line"

/-- C3 witness: a concrete garbage line parses to nothing and its ingestion
is a no-op on the initial state. -/
theorem C3_witness :
    parse_log_line lineGarbage = none ∧
      processLine 0 initState lineGarbage = initState :=
  ⟨(C3_unparseable_is_noop lineGarbage (by decide) (by decide)).1,
   (C3_unparseable_is_noop lineGarbage (by decide) (by decide)).2 0 initState⟩

/-- C7: the route of every parsed line is "/server1" when the URI starts
with "/server1", "/server2" when it starts with "/server2", and "/"
otherwise; these three buckets are the only possible route values. -/
theorem C7_route_bucketing (line : String) (e : LogEntry)
    (h : parse_log_line line = some e) :
    e.route = (if startsWithL "/server1".toList e.uri.toList then "/server1"
      else if startsWithL "/server2".toList e.uri.toList then "/server2"
      else "/")
    ∧ (e.route = "/server1" ∨ e.route = "/server2" ∨ e.route = "/") := by
  obtain ⟨c, rt, rfl⟩ := parseLine_shape h
  refine ⟨rfl, ?_⟩
  simp only [mkEntry]
  split_ifs <;> simp

def lineC7 : String := "7.7.7.7 - - [t] \"GET /server2/app HTTP/1.1\" 200 64 \"-\" \"-\" \"-\""

def entryC7 : LogEntry := mkEntry ⟨"7.7.7.7".toList, "-".toList, "t".toList,
  "GET".toList, "/server2/app".toList, "HTTP/1.1".toList, "200".toList,
  "64".toList, "-".toList, "-".toList, "-".toList⟩ none

/-- C7 witness: a concrete URI under /server2 lands in the "/server2"
bucket. -/
theorem C7_witness :
    parse_log_line lineC7 = some entryC7 ∧ entryC7.route = "/server2" := by
  have h : parse_log_line lineC7 = some entryC7 := by decide
  refine ⟨h, ?_⟩
  rw [(C7_route_bucketing lineC7 entryC7 h).1]
  decide

lemma parse_rate_limit_flag {line : String} {e : LogEntry}
    (h : parse_log_line line = some e) :
    e.rate_limit_hit = decide (e.status = "429") := by
  obtain ⟨c, rt, rfl⟩ := parseLine_shape h
  rfl

/-- C2: a 429 line increments the per-client and the global rate-limit
counter by 1 in lockstep at the same (route, method); a timed-out line does
the same for the timeout counters at the same (route, kind, method); and
after any ingested line sequence each global counter equals the sum of the
corresponding per-client counters over the clients seen. -/
theorem C2_lockstep_counters (now : ℚ) :
    (∀ (s : MetricState) (line : String) (e : LogEntry),
      parse_log_line line = some e → e.status = "429" →
        (processLine now s line).rate_limit_hits_total
            (e.user_ip, e.route, e.method) =
          s.rate_limit_hits_total (e.user_ip, e.route, e.method) + 1 ∧
        (processLine now s line).rate_limit_hits_global_total
            (e.route, e.method) =
          s.rate_limit_hits_global_total (e.route, e.method) + 1)
    ∧ (∀ (s : MetricState) (line : String) (e : LogEntry),
      parse_log_line line = some e → e.timeout_hit = true →
        (processLine now s line).timeout_events_total
            (e.user_ip, e.route, e.timeout_type, e.method) =
          s.timeout_events_total (e.user_ip, e.route, e.timeout_type, e.method) + 1 ∧
        (processLine now s line).timeout_events_global_total
            (e.route, e.timeout_type, e.method) =
          s.timeout_events_global_total (e.route, e.timeout_type, e.method) + 1)
    ∧ (∀ (lines : List String) (k : String × String),
        (runLines now lines).rate_limit_hits_global_total k =
          ∑ c ∈ clientsFinset lines, (runLines now lines).rate_limit_hits_total (c, k))
    ∧ (∀ (lines : List String) (k : String × String × String),
        (runLines now lines).timeout_events_global_total k =
          ∑ c ∈ clientsFinset lines, (runLines now lines).timeout_events_total (c, k)) := by
  refine ⟨?_, ?_, ?_, ?_⟩
  · intro s line e h hst
    have hflag : e.rate_limit_hit = true := by
      rw [parse_rate_limit_flag h, hst]
      decide
    rw [processLine_some h]
    simp only [hflag, if_true]
    exact ⟨bump_self _ _ _, bump_self _ _ _⟩
  · intro s line e h ht
    rw [processLine_some h]
    simp only [ht, if_true]
    exact ⟨bump_self _ _ _, bump_self _ _ _⟩
  · intro lines k
    exact (runLines_sumInv now lines).1.1 k
  · intro lines k
    exact (runLines_sumInv now lines).2.1 k

def lineC2 : String := "9.9.9.9 - - [t] \"POST /server1/api HTTP/1.1\" 429 0 \"-\" \"-\" \"-\""

def entryC2 : LogEntry := mkEntry ⟨"9.9.9.9".toList, "-".toList, "t".toList,
  "POST".toList, "/server1/api".toList, "HTTP/1.1".toList, "429".toList,
  "0".toList, "-".toList, "-".toList, "-".toList⟩ none

/-- C2 witness: a concrete 429 line bumps both rate-limit counters by one at
the same (route, method). -/
theorem C2_witness :
    (processLine 0 initState lineC2).rate_limit_hits_total
        (entryC2.user_ip, entryC2.route, entryC2.method) =
      initState.rate_limit_hits_total (entryC2.user_ip, entryC2.route, entryC2.method) + 1 ∧
    (processLine 0 initState lineC2).rate_limit_hits_global_total
        (entryC2.route, entryC2.method) =
      initState.rate_limit_hits_global_total (entryC2.route, entryC2.method) + 1 :=
  (C2_lockstep_counters 0).1 initState lineC2 entryC2 (by decide) (by decide)

lemma bump_le {α : Type} [DecidableEq α] (f : α → ℤ) (k : α) (amt : ℤ)
    (h : 0 ≤ amt) (x : α) : f x ≤ bump f k amt x := by
  rw [bump_apply]
  apply le_add_of_nonneg_right
  split
  · exact h
  · exact le_refl 0

lemma parse_bytes_nonneg {line : String} {e : LogEntry}
    (h : parse_log_line line = some e) : 0 ≤ e.bytes_sent := by
  obtain ⟨c, rt, rfl⟩ := parseLine_shape h
  exact Int.natCast_nonneg _

lemma processLine_mono (now : ℚ) (s : MetricState) (line : String) :
    (∀ k, s.user_requests_total k ≤ (processLine now s line).user_requests_total k) ∧
    (∀ k, s.user_bytes_total k ≤ (processLine now s line).user_bytes_total k) ∧
    (∀ k, s.rate_limit_hits_total k ≤ (processLine now s line).rate_limit_hits_total k) ∧
    (∀ k, s.rate_limit_hits_global_total k ≤ (processLine now s line).rate_limit_hits_global_total k) ∧
    (∀ k, s.timeout_events_total k ≤ (processLine now s line).timeout_events_total k) ∧
    (∀ k, s.timeout_events_global_total k ≤ (processLine now s line).timeout_events_global_total k) := by
  cases hp : parse_log_line line with
  | none =>
    rw [processLine_none hp]
    exact ⟨fun _ => le_refl _, fun _ => le_refl _, fun _ => le_refl _,
      fun _ => le_refl _, fun _ => le_refl _, fun _ => le_refl _⟩
  | some e =>
    rw [processLine_some hp]
    refine ⟨fun k => bump_le _ _ _ (by norm_num) k,
      fun k => bump_le _ _ _ (parse_bytes_nonneg hp) k, fun k => ?_,
      fun k => ?_, fun k => ?_, fun k => ?_⟩ <;>
      · simp only []
        split
        · exact bump_le _ _ _ (by norm_num) k
        · exact le_refl _

lemma processLines_mono (now : ℚ) (s : MetricState) (lines : List String) :
    (∀ k, s.user_requests_total k ≤ (processLines now s lines).user_requests_total k) ∧
    (∀ k, s.user_bytes_total k ≤ (processLines now s lines).user_bytes_total k) ∧
    (∀ k, s.rate_limit_hits_total k ≤ (processLines now s lines).rate_limit_hits_total k) ∧
    (∀ k, s.rate_limit_hits_global_total k ≤ (processLines now s lines).rate_limit_hits_global_total k) ∧
    (∀ k, s.timeout_events_total k ≤ (processLines now s lines).timeout_events_total k) ∧
    (∀ k, s.timeout_events_global_total k ≤ (processLines now s lines).timeout_events_global_total k) := by
  induction lines generalizing s with
  | nil =>
    exact ⟨fun _ => le_refl _, fun _ => le_refl _, fun _ => le_refl _,
      fun _ => le_refl _, fun _ => le_refl _, fun _ => le_refl _⟩
  | cons l ls ih =>
    have h1 := processLine_mono now s l
    have h2 := ih (processLine now s l)
    exact ⟨fun k => le_trans (h1.1 k) (h2.1 k),
      fun k => le_trans (h1.2.1 k) (h2.2.1 k),
      fun k => le_trans (h1.2.2.1 k) (h2.2.2.1 k),
      fun k => le_trans (h1.2.2.2.1 k) (h2.2.2.2.1 k),
      fun k => le_trans (h1.2.2.2.2.1 k) (h2.2.2.2.2.1 k),
      fun k => le_trans (h1.2.2.2.2.2 k) (h2.2.2.2.2.2 k)⟩

/-- C9: every counter is monotonically non-decreasing across any ingested
line sequence, and every increment amount is non-negative: the request and
rate-limit/timeout counters are bumped by the constant 1 and the byte
counter by `bytesSent`, which the parser guarantees non-negative (the
grammar only admits digit tokens), so the negative-amount error branch of
the Prometheus counter increment is unreachable. -/
theorem C9_counters_monotone (now : ℚ) (s : MetricState) (lines : List String) :
    (∀ (line : String) (e : LogEntry), parse_log_line line = some e →
      0 ≤ e.bytes_sent)
    ∧ (∀ k, s.user_requests_total k ≤ (processLines now s lines).user_requests_total k)
    ∧ (∀ k, s.user_bytes_total k ≤ (processLines now s lines).user_bytes_total k)
    ∧ (∀ k, s.rate_limit_hits_total k ≤ (processLines now s lines).rate_limit_hits_total k)
    ∧ (∀ k, s.rate_limit_hits_global_total k ≤ (processLines now s lines).rate_limit_hits_global_total k)
    ∧ (∀ k, s.timeout_events_total k ≤ (processLines now s lines).timeout_events_total k)
    ∧ (∀ k, s.timeout_events_global_total k ≤ (processLines now s lines).timeout_events_global_total k) :=
  ⟨fun _ _ h => parse_bytes_nonneg h, (processLines_mono now s lines).1,
    (processLines_mono now s lines).2.1, (processLines_mono now s lines).2.2.1,
    (processLines_mono now s lines).2.2.2.1,
    (processLines_mono now s lines).2.2.2.2.1,
    (processLines_mono now s lines).2.2.2.2.2⟩

/-- C9 witness: at a concrete 504 line the byte amount is non-negative and a
concrete counter cell does not decrease. -/
theorem C9_witness :
    0 ≤ entryC1.bytes_sent ∧
      initState.user_requests_total ("1.1.1.1", "504", "GET", "/server1") ≤
        (processLines 0 initState [lineC1]).user_requests_total
          ("1.1.1.1", "504", "GET", "/server1") :=
  ⟨(C9_counters_monotone 0 initState []).1 lineC1 entryC1 (by decide),
   (C9_counters_monotone 0 initState [lineC1]).2.1 ("1.1.1.1", "504", "GET", "/server1")⟩

/-- C8: at a refresh tick, a client seen less than 60 time-units ago gets
`active_connections = min(count, 10)` (so the gauge never exceeds 10) and
`requests_per_second = count / 60`; a client inactive for 60 or more
time-units gets `active_connections = 0` and its pending request count is
reset to 0. -/
theorem C8_refresh_tick (now t : ℚ) (s : MetricState) (ip : String)
    (h : s.user_last_seen ip = some t) :
    (now - t < 60 →
      (refreshTick now s).user_active_connections ip =
        some (min (s.active_users ip) 10) ∧
      (refreshTick now s).user_requests_per_second ip =
        some ((s.active_users ip : ℚ) / 60))
    ∧ (¬ now - t < 60 →
      (refreshTick now s).user_active_connections ip = some 0 ∧
      (refreshTick now s).active_users ip = 0)
    ∧ (∀ n, (refreshTick now s).user_active_connections ip = some n → n ≤ 10) := by
  refine ⟨fun hlt => ⟨?_, ?_⟩, fun hge => ⟨?_, ?_⟩, fun n hn => ?_⟩
  · simp [refreshTick, calculate_requests_per_second,
      update_active_connections, h, hlt]
  · simp only [refreshTick, calculate_requests_per_second,
      update_active_connections, h, hlt, if_true, ite_true]
    congr 1
    rcases Nat.eq_zero_or_pos (s.active_users ip) with h0 | hpos
    · rw [h0]
      norm_num
    · rw [if_pos hpos]
  · simp [refreshTick, calculate_requests_per_second,
      update_active_connections, h, hge]
  · simp [refreshTick, calculate_requests_per_second,
      update_active_connections, h, hge]
  · by_cases hlt : now - t < 60
    · simp [refreshTick, calculate_requests_per_second,
        update_active_connections, h, hlt] at hn
      omega
    · simp [refreshTick, calculate_requests_per_second,
        update_active_connections, h, hlt] at hn
      omega

/-- A small concrete state: one tracked client "a" seen at time 0 with 3
pending requests. -/
def stateC8 : MetricState :=
  { initState with
    user_last_seen := fun ip => if ip = "a" then some 0 else none
    active_users := fun ip => if ip = "a" then 3 else 0 }

/-- C8 witness: refreshing at time 30 (client active) sets the clamped
active-connections gauge and the rate gauge. -/
theorem C8_witness :
    (refreshTick 30 stateC8).user_active_connections "a" =
      some (min (stateC8.active_users "a") 10) ∧
    (refreshTick 30 stateC8).user_requests_per_second "a" =
      some ((stateC8.active_users "a" : ℚ) / 60) :=
  (C8_refresh_tick 30 0 stateC8 "a" (by decide)).1
    (by simp only [sub_zero]; decide)

def lineC4 : String := "1.2.3.4 - - [t] \"GET /server1 HTTP/1.1\" 200 abc \"-\" \"-\" \"-\""

/-- C4 counterexample: a line whose BYTES slot holds the non-numeric token
"abc" (but is otherwise grammar-shaped) does not parse with `bytesSent = 0`
— it matches neither grammar and the whole parse fails. -/
theorem C4_counterexample : parse_log_line lineC4 = none := by decide

/-- C4 (amended): every accepted line matched a grammar whose BYTES capture
is a nonempty digit string, and `bytesSent` is exactly its numeric value;
a line whose BYTES token is empty or non-numeric therefore matches neither
grammar and the whole parse fails (the `else 0` default in the source is
dead code, because the regex group `(\d+)` cannot capture an empty or
non-numeric token). -/
theorem C4_bytes_amended (line : String) (e : LogEntry)
    (h : parse_log_line line = some e) :
    ∃ (c : RawCommon) (rest : List Char),
      parseCommon (pyStrip line.toList) = some (c, rest) ∧
      c.bytes ≠ [] ∧ (∀ ch ∈ c.bytes, isDigitC ch = true) ∧
      e.bytes_sent = (natOfDigits c.bytes : ℤ) := by
  simp only [parse_log_line, parseLine] at h
  split at h
  · rename_i c0 rtTok hE
    obtain ⟨rest, hC⟩ := parseEnhanced_common hE
    have hb := parseCommon_bytes hC
    split at h
    · refine ⟨c0, rest, hC, hb.1, hb.2, ?_⟩
      rw [← Option.some.inj h]
      rfl
    · exact Option.noConfusion h
  · split at h
    · rename_i c0 rest0 hC
      have hb := parseCommon_bytes hC
      refine ⟨c0, rest0, hC, hb.1, hb.2, ?_⟩
      rw [← Option.some.inj h]
      rfl
    · exact Option.noConfusion h

/-- C4 witness: a concrete accepted line whose BYTES capture is "64". -/
theorem C4_witness :
    ∃ (c : RawCommon) (rest : List Char),
      parseCommon (pyStrip lineC7.toList) = some (c, rest) ∧
      c.bytes ≠ [] ∧ (∀ ch ∈ c.bytes, isDigitC ch = true) ∧
      entryC7.bytes_sent = (natOfDigits c.bytes : ℤ) :=
  C4_bytes_amended lineC7 entryC7 (by decide)

def lineC5 : String :=
  "1.2.3.4 - - [t] \"GET / HTTP/1.1\" 200 5 \"-\" \"-\" \"-\" rt=. uct=\"0.1\" uht=\"0.1\" urt=\"0.1\""

/-- C5 counterexample: a line whose rt token is "." (matched by the regex
class `[\d.]+` but rejected by `float`) does not parse with duration absent
— the raised `ValueError` makes the whole parse return no record. -/
theorem C5_counterexample : parse_log_line lineC5 = none := by decide

/-- C5 (amended): a line that fails the enhanced grammar but is accepted
parses with duration absent, and an absent duration disables exactly the
response-timeout rule (only the two status rules can still fire).  However
— contrary to the original claim — a line whose rt token matches `[\d.]+`
but is not a valid float (such as "rt=.") makes the entire parse fail
rather than degrading to an absent duration. -/
theorem C5_duration_amended (line : String) (e : LogEntry)
    (h : parse_log_line line = some e) :
    (parseEnhanced (pyStrip line.toList) = none → e.request_time = none)
    ∧ (e.request_time = none →
        (e.timeout_hit = true ↔ (e.status = "504" ∨ e.status = "408"))) := by
  constructor
  · intro hE
    simp only [parse_log_line, parseLine, hE] at h
    split at h
    · rw [← Option.some.inj h]
      rfl
    · exact Option.noConfusion h
  · obtain ⟨c, rt, rfl⟩ := parseLine_shape h
    intro hrt
    have hrtn : rt = none := hrt
    subst hrtn
    show (mkEntry c none).timeout_hit = true ↔ _
    simp only [mkEntry, durGt600]
    split_ifs <;> simp_all

/-- C5 witness: a concrete line without a timing suffix parses with absent
duration, and for it a timeout can only come from status 504/408. -/
theorem C5_witness :
    entryC7.request_time = none ∧
      (entryC7.timeout_hit = true ↔ (entryC7.status = "504" ∨ entryC7.status = "408")) :=
  ⟨(C5_duration_amended lineC7 entryC7 (by decide)).1 (by decide),
   (C5_duration_amended lineC7 entryC7 (by decide)).2 (by decide)⟩

lemma timingSuffixL_last (rt uct uht urt : List Char) :
    ∃ front, timingSuffixL rt uct uht urt = front ++ ['"'] :=
  ⟨" rt=".toList ++ rt ++ " uct=\"".toList ++ uct ++ "\" uht=\"".toList ++
    uht ++ "\" urt=\"".toList ++ urt, by
      simp only [timingSuffixL, List.append_assoc]
      rfl⟩

lemma timingSuffixL_getLast (rt uct uht urt : List Char) :
    ∀ c, (timingSuffixL rt uct uht urt).getLast? = some c → isWS c = false := by
  intro c hc
  obtain ⟨front, hf⟩ := timingSuffixL_last rt uct uht urt
  rw [hf, getLast?_append_right (List.cons_ne_nil _ _),
    List.getLast?_singleton, Option.some.injEq] at hc
  subst hc
  rfl

/-- C6: a well-formed enhanced-grammar line parses to exactly the method,
URI, status, byte count and duration embedded in it; the same line without
the timing suffix parses via the basic grammar with duration absent. -/
theorem C6_parse_roundtrip (addr user ts method uri proto status bytes
    referer agent xff rt uct uht urt : List Char)
    (h1 : tok1 notWS addr) (h2 : tok1 notWS user) (h3 : tok1 notRB ts)
    (h4 : tok1 notWS method) (h5 : tok1 notWS uri) (h6 : tok1 notQ proto)
    (h7 : tok1 isDigitC status) (h8 : tok1 isDigitC bytes)
    (h9 : tok0 notQ referer) (h10 : tok0 notQ agent) (h11 : tok0 notQ xff)
    (h12 : tok1 rtChar rt) (h13 : tok0 notQ uct) (h14 : tok0 notQ uht)
    (h15 : tok0 notQ urt) (v : ℚ) (hv : pyFloatOfToken rt = some v) :
    (∃ e, parse_log_line (String.mk (logLineL addr user ts method uri proto
        status bytes referer agent xff (timingSuffixL rt uct uht urt))) = some e ∧
      e.method = String.mk method ∧ e.uri = String.mk uri ∧
      e.status = String.mk status ∧ e.bytes_sent = (natOfDigits bytes : ℤ) ∧
      e.request_time = some v)
    ∧ (∃ e, parse_log_line (String.mk (logLineL addr user ts method uri proto
        status bytes referer agent xff [])) = some e ∧
      e.method = String.mk method ∧ e.uri = String.mk uri ∧
      e.status = String.mk status ∧ e.bytes_sent = (natOfDigits bytes : ℤ) ∧
      e.request_time = none) := by
  constructor
  · have hstrip := pyStrip_logLineL user ts method uri proto status bytes
      referer agent xff (timingSuffixL rt uct uht urt) h1
      (timingSuffixL_getLast rt uct uht urt)
    refine ⟨mkEntry ⟨addr, user, ts, method, uri, proto, status, bytes,
      referer, agent, xff⟩ (some v), ?_, rfl, rfl, rfl, rfl, rfl⟩
    show parseLine (logLineL addr user ts method uri proto status bytes
      referer agent xff (timingSuffixL rt uct uht urt)) = _
    simp only [parseLine, hstrip,
      parseEnhanced_build h1 h2 h3 h4 h5 h6 h7 h8 h9 h10 h11 h12 h13 h14 h15,
      hv]
  · have hstrip := pyStrip_logLineL user ts method uri proto status bytes
      referer agent xff [] h1 (fun c hc => Option.noConfusion hc)
    refine ⟨mkEntry ⟨addr, user, ts, method, uri, proto, status, bytes,
      referer, agent, xff⟩ none, ?_, rfl, rfl, rfl, rfl, rfl⟩
    show parseLine (logLineL addr user ts method uri proto status bytes
      referer agent xff []) = _
    simp only [parseLine, hstrip,
      parseEnhanced_basic_fails h1 h2 h3 h4 h5 h6 h7 h8 h9 h10 h11,
      parseCommon_build _ h1 h2 h3 h4 h5 h6 h7 h8 h9 h10 h11]

/-- C6 witness: a concrete enhanced line (and its basic counterpart) round
trips through the parser. -/
theorem C6_witness :
    (∃ e, parse_log_line (String.mk (logLineL "10.0.0.1".toList "-".toList
        "t".toList "GET".toList "/server1/x".toList "HTTP/1.1".toList
        "200".toList "1024".toList "-".toList "ua".toList "-".toList
        (timingSuffixL "0.25".toList "0.1".toList "0.1".toList "0.2".toList))) = some e ∧
      e.method = String.mk "GET".toList ∧ e.uri = String.mk "/server1/x".toList ∧
      e.status = String.mk "200".toList ∧
      e.bytes_sent = (natOfDigits "1024".toList : ℤ) ∧
      e.request_time = some (mkRat 1 4))
    ∧ (∃ e, parse_log_line (String.mk (logLineL "10.0.0.1".toList "-".toList
        "t".toList "GET".toList "/server1/x".toList "HTTP/1.1".toList
        "200".toList "1024".toList "-".toList "ua".toList "-".toList [])) = some e ∧
      e.method = String.mk "GET".toList ∧ e.uri = String.mk "/server1/x".toList ∧
      e.status = String.mk "200".toList ∧
      e.bytes_sent = (natOfDigits "1024".toList : ℤ) ∧
      e.request_time = none) :=
  C6_parse_roundtrip "10.0.0.1".toList "-".toList "t".toList "GET".toList
    "/server1/x".toList "HTTP/1.1".toList "200".toList "1024".toList
    "-".toList "ua".toList "-".toList "0.25".toList "0.1".toList
    "0.1".toList "0.2".toList (by decide) (by decide) (by decide) (by decide)
    (by decide) (by decide) (by decide) (by decide) (by decide) (by decide)
    (by decide) (by decide) (by decide) (by decide) (by decide)
    (mkRat 1 4) (by decide)

/-- C10: the basic grammar is matched as an unanchored prefix: a line in
grammar shape whose trailing text fails the enhanced grammar (for example a
malformed `rt=` token containing letters) still parses via the basic
grammar, with duration absent and the malformed suffix silently ignored. -/
theorem C10_basic_grammar_fallback (addr user ts method uri proto status
    bytes referer agent xff tl : List Char)
    (h1 : tok1 notWS addr) (h2 : tok1 notWS user) (h3 : tok1 notRB ts)
    (h4 : tok1 notWS method) (h5 : tok1 notWS uri) (h6 : tok1 notQ proto)
    (h7 : tok1 isDigitC status) (h8 : tok1 isDigitC bytes)
    (h9 : tok0 notQ referer) (h10 : tok0 notQ agent) (h11 : tok0 notQ xff)
    (htl : ∀ c, tl.getLast? = some c → isWS c = false)
    (hE : parseEnhanced (logLineL addr user ts method uri proto status bytes
      referer agent xff tl) = none) :
    parse_log_line (String.mk (logLineL addr user ts method uri proto status
        bytes referer agent xff tl)) =
      some (mkEntry ⟨addr, user, ts, method, uri, proto, status, bytes,
        referer, agent, xff⟩ none) ∧
    (mkEntry ⟨addr, user, ts, method, uri, proto, status, bytes, referer,
      agent, xff⟩ none).request_time = none := by
  have hstrip := pyStrip_logLineL user ts method uri proto status bytes
    referer agent xff tl h1 htl
  refine ⟨?_, rfl⟩
  show parseLine (logLineL addr user ts method uri proto status bytes referer
    agent xff tl) = _
  simp only [parseLine, hstrip, hE,
    parseCommon_build _ h1 h2 h3 h4 h5 h6 h7 h8 h9 h10 h11]

/-- C10 witness: a concrete line whose timing suffix "rt=abc..." fails the
enhanced grammar still parses via the basic grammar with the suffix
ignored. -/
theorem C10_witness :
    parse_log_line (String.mk (logLineL "8.8.8.8".toList "-".toList
        "t".toList "GET".toList "/server2".toList "HTTP/1.1".toList
        "200".toList "77".toList "-".toList "ua".toList "-".toList
        " rt=abc uct=\"0.1\"".toList)) =
      some (mkEntry ⟨"8.8.8.8".toList, "-".toList, "t".toList, "GET".toList,
        "/server2".toList, "HTTP/1.1".toList, "200".toList, "77".toList,
        "-".toList, "ua".toList, "-".toList⟩ none) ∧
    (mkEntry ⟨"8.8.8.8".toList, "-".toList, "t".toList, "GET".toList,
      "/server2".toList, "HTTP/1.1".toList, "200".toList, "77".toList,
      "-".toList, "ua".toList, "-".toList⟩ none).request_time = none :=
  C10_basic_grammar_fallback "8.8.8.8".toList "-".toList "t".toList
    "GET".toList "/server2".toList "HTTP/1.1".toList "200".toList
    "77".toList "-".toList "ua".toList "-".toList " rt=abc uct=\"0.1\"".toList
    (by decide) (by decide) (by decide) (by decide) (by decide) (by decide)
    (by decide) (by decide) (by decide) (by decide) (by decide) (by decide)
    (by decide)

end UserStats
